import Mathlib

/-!
# Shallow embedding of `ihnsolver.py`

This file embeds the pipeline of `ihnsolver.py` (input loading, pattern
filtering, sampling, the fallback socket resolver, the fallback socket
prober, host normalization and the output writer) as executable Lean
definitions, and proves the specification's claims about them.

Modelling conventions:
* Python strings are Lean `String`s; per-character case mapping uses
  `Char.toLower`, i.e. the ASCII fragment of Python's `str.lower`.
* `str.strip()` is modelled by dropping `Char.isWhitespace` characters
  from both ends.
* Network effects (`socket.getaddrinfo`, `socket.create_connection` +
  `recv`) are oracles passed as function arguments; `none` stands for
  any exception raised inside the corresponding `try` block.
* `sorted(set(xs))` is modelled by `sortedSet`, sorting the
  deduplicated elements by the linear order on `String` (code-point
  lexicographic, as in Python).
* The thread pools (`ThreadPoolExecutor` + `as_completed`) are modelled
  by processing hosts in submission order: each worker owns a distinct
  host, the alive/resolved sets are order-independent, and the claims
  about raw output lines only concern presence or absence of lines.
-/

/-- Executable strict lexicographic comparison of character lists
(code-point order, as Python compares strings). -/
def lexLtB : List Char → List Char → Bool
  | [], [] => false
  | [], _ :: _ => true
  | _ :: _, [] => false
  | a :: as, b :: bs => decide (a < b) || (a = b && lexLtB as bs)

/-- Executable `≤` on strings, agreeing with the lexicographic linear
order on `String` (see `strLeB_iff`). -/
def strLeB (a b : String) : Bool :=
  !lexLtB b.data a.data

/-- The sorting relation actually used by the embedding: it is the
linear order on `String` (see `strLeB_iff`), packaged so that it
evaluates by kernel reduction. -/
def strLe (a b : String) : Prop := strLeB a b = true

instance : DecidableRel strLe := fun a b => by
  unfold strLe
  infer_instance

/-- Python's `sorted(set(xs))` for strings: the deduplicated list of
elements of `xs` in increasing lexicographic order. -/
def sortedSet (xs : List String) : List String :=
  List.insertionSort strLe xs.dedup

/-- One whitespace-trimming side of Python's `str.strip`. -/
def dropLead (l : List Char) : List Char :=
  l.dropWhile Char.isWhitespace

/-- Python's `str.strip()` on the character list: whitespace removed from both
ends. -/
def pyStripL (l : List Char) : List Char :=
  ((dropLead l).reverse.dropWhile Char.isWhitespace).reverse

/-- Python's `str.strip()` on strings. -/
def pyStrip (s : String) : String :=
  ⟨pyStripL s.data⟩

/-- Python's `str.lower()` on strings (ASCII fragment, via `Char.toLower`). -/
def pyLower (s : String) : String :=
  ⟨s.data.map Char.toLower⟩

/-- The loader `read_input`: strip + lowercase each line, skip blanks, return
`sorted(set(...))`.  The file is given as its list of lines. -/
def read_input (content : List String) : List String :=
  sortedSet ((content.map fun l => pyLower (pyStrip l)).filter fun s => s ≠ "")

/-- Truncation `lines[:n]` guarded by `if n <= 0: return lines` (`sample_lines`). -/
def sample_lines (lines : List String) (n : Int) : List String :=
  if n ≤ 0 then lines else lines.take n.toNat

/-- Remove the trailing characters of `l` that belong to `bad`
(Python's `str.rstrip(bad)`). -/
def rstripChars (bad : List Char) (l : List Char) : List Char :=
  (l.reverse.dropWhile (· ∈ bad)).reverse

/-- The scheme-stripping step of `normalize_host`:
`re.sub(r"^https?://", "", h, flags=re.IGNORECASE)`.  The regex matches
exactly a case-insensitive `https://` or `http://` at the start. -/
def stripSchemeL (l : List Char) : List Char :=
  if (l.take 8).map Char.toLower = "https://".data then l.drop 8
  else if (l.take 7).map Char.toLower = "http://".data then l.drop 7
  else l

/-- Normalization `normalize_host`: strip a leading scheme, then `rstrip("/ ")`. -/
def normalize_host (h : String) : String :=
  ⟨rstripChars ['/', ' '] (stripSchemeL h.data)⟩

/-- Does the string start with a (case-insensitive) `http://` or
`https://` scheme?  (Used to state when `normalize_host` is a fixed
point of itself.) -/
def hasSchemeStart (s : String) : Bool :=
  ((s.data.take 8).map Char.toLower = "https://".data) ||
  ((s.data.take 7).map Char.toLower = "http://".data)

/-- A character list with no whitespace at either end. -/
def NoWsEdge (l : List Char) : Prop :=
  (∀ c, l.head? = some c → c.isWhitespace = false) ∧
  (∀ c, l.reverse.head? = some c → c.isWhitespace = false)

/-- The worker body of `resolve_with_socket` (`check`): look the host
up; if at least one address record comes back, return the host,
otherwise (empty record list, or any exception, modelled by `none`)
return `None`. -/
def resolve_check {α : Type} (dns : String → Option (List α)) (h : String) :
    Option String :=
  match dns h with
  | some infos => if infos.isEmpty then none else some h
  | none => none

/-- The resolver `resolve_with_socket`: run `check` per host and accumulate the
truthy results (`if r: resolved.add(r)`), returning `sorted(resolved)`.
The address-record type is abstract. -/
def resolve_with_socket {α : Type} (dns : String → Option (List α))
    (hosts : List String) : List String :=
  sortedSet (hosts.filterMap fun h =>
    match resolve_check dns h with
    | some r => if r = "" then none else some r
    | none => none)

/-- Numeric value of a digit character (`int(c) - 48`). -/
def digitVal (c : Char) : Nat := c.toNat - 48

/-- Match `re` pattern `HTTP/\d+\.\d+\s+(\d{3})` at the head of the
character list, returning the captured three-digit status code.  The
greedy `\d+`/`\s+` munches are exact here because a digit is never a
dot or whitespace.  (`\s`/`\d` are modelled by their ASCII fragments
`Char.isWhitespace`/`Char.isDigit`.) -/
def statusAt : List Char → Option Nat
  | 'H' :: 'T' :: 'T' :: 'P' :: '/' :: rest =>
    if rest.takeWhile Char.isDigit = [] then none
    else
      match rest.dropWhile Char.isDigit with
      | '.' :: r2 =>
        if r2.takeWhile Char.isDigit = [] then none
        else
          let r3 := r2.dropWhile Char.isDigit
          if r3.takeWhile Char.isWhitespace = [] then none
          else
            match r3.dropWhile Char.isWhitespace with
            | a :: b :: c :: _ =>
              if a.isDigit && b.isDigit && c.isDigit then
                some (digitVal a * 100 + digitVal b * 10 + digitVal c)
              else none
            | _ => none
      | _ => none
  | _ => none

/-- Search (`re.search`) for the status-line pattern: try every start position
from the left; the first match wins. -/
def findStatus : List Char → Option Nat
  | [] => none
  | c :: rest =>
    match statusAt (c :: rest) with
    | some k => some k
    | none => findStatus rest

/-- The status code (`int(m.group(1)) if m else 0`) extracted from the
probe response, `0` when no status line parses. -/
def parseStatusCode (data : String) : Nat :=
  (findStatus data.data).getD 0

/-- The connect target `url.split("://", 1)[1].split("/", 1)[0]` for `url = scheme://host`:
the host up to its first slash. -/
def hostnameOf (host : String) : String :=
  ⟨host.data.takeWhile (· ≠ '/')⟩

/-- The prober worker `probe_host_with_requests`: try HTTPS (port 443) then HTTP
(port 80).  `net hn port = some data` means the socket connection to
`hn:port` succeeded and `recv(1024)` returned `data`; `none` means any
exception in the `try` block (the `except` clause falls through to the
next scheme).  On success the result is `(url, status, "-")`. -/
def probe_host_with_requests (net : String → Nat → Option String)
    (host : String) : Option (String × Nat × String) :=
  match net (hostnameOf host) 443 with
  | some data => some ("https://" ++ host, parseStatusCode data, "-")
  | none =>
    match net (hostnameOf host) 80 with
    | some data => some ("http://" ++ host, parseStatusCode data, "-")
    | none => none

/-- One synthesized raw-output line: `f"{url} {code} {title}\n"`. -/
def probeLine (r : String × Nat × String) : String :=
  r.1 ++ " " ++ toString r.2.1 ++ " " ++ r.2.2 ++ "\n"

/-- The prober `run_probe_fallback`: probe every host; each successful probe
appends a raw line and adds `normalize_host(url)` to the alive set.
Returns `(sorted(alive_hosts), raw lines)`.  Workers are processed in
submission order (one fixed schedule of `as_completed`); the alive set
does not depend on that order. -/
def run_probe_fallback (net : String → Nat → Option String)
    (hosts : List String) : List String × List String :=
  let results := hosts.filterMap fun h => probe_host_with_requests net h
  (sortedSet (results.map fun r => normalize_host r.1),
   results.map probeLine)

/-!
## A small regular-expression engine

`filter_by_pattern` delegates to Python's `re` module.  The fragment
of `re` syntax this embedding supports is: literal characters, `.`,
postfix `*`, top-level alternation `|`, and a leading `^` anchor per
alternative — enough for the patterns the specification discusses
(e.g. `^api`, `api|admin|login`).  Unsupported metacharacters make the
parser return `none`, standing for patterns outside the model (just as
`re.compile` may raise on ill-formed patterns).  Matching is by
Brzozowski derivatives; `re.IGNORECASE` is modelled by comparing
characters through `Char.toLower`.
-/

/-- Regular-expression abstract syntax. -/
inductive Regex : Type
  | fail
  | eps
  | ch (c : Char)
  | dot
  | seq (r₁ r₂ : Regex)
  | alt (r₁ r₂ : Regex)
  | star (r : Regex)
deriving DecidableEq

/-- Does the regex accept the empty string? -/
def Regex.nullable : Regex → Bool
  | .fail => false
  | .eps => true
  | .ch _ => false
  | .dot => false
  | .seq r₁ r₂ => r₁.nullable && r₂.nullable
  | .alt r₁ r₂ => r₁.nullable || r₂.nullable
  | .star _ => true

/-- Brzozowski derivative with respect to a character, case-insensitive
on literals (`re.IGNORECASE`). -/
def Regex.deriv (r : Regex) (c : Char) : Regex :=
  match r with
  | .fail => .fail
  | .eps => .fail
  | .ch d => if d.toLower = c.toLower then .eps else .fail
  | .dot => .eps
  | .seq r₁ r₂ =>
    if r₁.nullable then .alt (.seq (r₁.deriv c) r₂) (r₂.deriv c)
    else .seq (r₁.deriv c) r₂
  | .alt r₁ r₂ => .alt (r₁.deriv c) (r₂.deriv c)
  | .star r => .seq (r.deriv c) (.star r)

/-- Does the regex match some prefix of the character list? -/
def matchPref (r : Regex) : List Char → Bool
  | [] => r.nullable
  | c :: cs => r.nullable || matchPref (r.deriv c) cs

/-- Does the regex match a substring starting anywhere
(`re.search` without an anchor)? -/
def searchSome (r : Regex) : List Char → Bool
  | [] => r.nullable
  | c :: cs => matchPref r (c :: cs) || searchSome r cs

/-- Metacharacters that the embedded `re` fragment does not support as
literals. -/
def metaChars : List Char :=
  ['\\', '^', '$', '*', '+', '?', '(', ')', '[', ']', '\x7b', '\x7d']

/-- The atom denoted by one supported pattern character. -/
def atomOf (c : Char) : Regex :=
  if c = '.' then .dot else .ch c

/-- Parse a `|`-free, `^`-free run of atoms: literals and `.`, each
optionally starred. -/
def parseAtoms : List Char → Option Regex
  | [] => some .eps
  | c :: '*' :: rest =>
    if c ∈ metaChars then none
    else (parseAtoms rest).map fun r => Regex.seq (.star (atomOf c)) r
  | c :: rest =>
    if c ∈ metaChars then none
    else (parseAtoms rest).map fun r => Regex.seq (atomOf c) r

/-- Parse one alternative: an optional leading `^` anchor, then atoms. -/
def parseBranch (l : List Char) : Option (Bool × Regex) :=
  match l with
  | '^' :: rest => (parseAtoms rest).map fun r => (true, r)
  | _ => (parseAtoms l).map fun r => (false, r)

/-- Split the pattern at top-level `|`. -/
def splitBar : List Char → List (List Char)
  | [] => [[]]
  | '|' :: rest => [] :: splitBar rest
  | c :: rest =>
    match splitBar rest with
    | [] => [[c]]
    | b :: bs => (c :: b) :: bs

/-- Compile a pattern string into its list of alternatives. -/
def parsePattern (p : String) : Option (List (Bool × Regex)) :=
  (splitBar p.data).mapM parseBranch

/-- Python's `pat.search(s)`: some alternative matches, at the start if
anchored, anywhere otherwise. -/
def reSearch (brs : List (Bool × Regex)) (s : String) : Bool :=
  brs.any fun br => if br.1 then matchPref br.2 s.data else searchSome br.2 s.data

/-- The filter `filter_by_pattern`: empty pattern keeps all lines; otherwise keep
the lines on which the case-insensitive compiled pattern search
succeeds.  `none` stands for a pattern outside the modelled `re`
fragment. -/
def filter_by_pattern (lines : List String) (pattern : String) :
    Option (List String) :=
  if pattern = "" then some lines
  else (parsePattern pattern).map fun brs => lines.filter fun l => reSearch brs l

/-!
## The `main` pipeline

`pipeline` is `main` with the fallback strategies (no `dnsx`/`httpx`
binaries on `PATH`), network effects abstracted as oracles, and the
file system abstracted: the input file is `none` when missing and
`some lines` otherwise, and the result is the association list of
`(file name, content)` pairs written, in write order.  Error exit
codes: `sys.exit(1)` on a missing input file; an uncaught `re.error`
also terminates the interpreter with exit status 1. -/

structure Args where
  pattern : String
  sample : Int
  output : String

/-- One line of the live-hosts output file (`h.rstrip("/\n") + "\n"`). -/
def aliveHostLine (h : String) : String :=
  ⟨rstripChars ['/', '\n'] h.data⟩ ++ "\n"

/-- The `main` pipeline on the fallback strategies. -/
def pipeline {α : Type} (inputFile : Option (List String)) (args : Args)
    (dns : String → Option (List α)) (net : String → Nat → Option String) :
    Except Nat (List (String × String)) :=
  match inputFile with
  | none => Except.error 1
  | some content =>
    let hosts0 := read_input content
    match if args.pattern = "" then some hosts0
          else filter_by_pattern hosts0 args.pattern with
    | none => Except.error 1
    | some hosts1 =>
      let hosts := if 0 < args.sample then sample_lines hosts1 args.sample
                   else hosts1
      let resolved := resolve_with_socket dns hosts
      let probed := run_probe_fallback net resolved
      Except.ok [("httpx-alive.txt", String.join probed.2),
                 (args.output, String.join ((sortedSet probed.1).map aliveHostLine))]

/-!
## Order bridging: the executable comparison is the `String` order
-/

theorem lexLtB_iff_lex :
    ∀ l₁ l₂ : List Char, lexLtB l₁ l₂ = true ↔ List.Lex (· < ·) l₁ l₂ := by
  intro l₁
  induction l₁ with
  | nil =>
    intro l₂
    cases l₂ with
    | nil => simp [lexLtB]
    | cons b bs => simpa [lexLtB] using List.Lex.nil
  | cons a as ih =>
    intro l₂
    cases l₂ with
    | nil =>
      simp only [lexLtB, Bool.false_eq_true, false_iff]
      intro h
      cases h
    | cons b bs =>
      simp only [lexLtB, Bool.or_eq_true, decide_eq_true_eq, Bool.and_eq_true,
        ih bs]
      constructor
      · rintro (hab | ⟨rfl, h⟩)
        · exact List.Lex.rel hab
        · exact List.Lex.cons h
      · intro h
        cases h with
        | cons h => exact Or.inr ⟨by simp, h⟩
        | rel h => exact Or.inl h

theorem strLeB_iff {a b : String} : strLeB a b = true ↔ a ≤ b := by
  rw [strLeB, Bool.not_eq_true', ← Bool.not_eq_true, lexLtB_iff_lex]
  constructor
  · intro h
    by_contra hle
    rw [not_le] at hle
    exact h (String.lt_iff_toList_lt.mp hle)
  · intro h hlt
    exact absurd (String.lt_iff_toList_lt.mpr hlt) (not_lt.mpr h)

theorem strLe_total : ∀ a b, strLe a b ∨ strLe b a := fun a b => by
  rcases le_total a b with h | h
  · exact Or.inl (strLeB_iff.mpr h)
  · exact Or.inr (strLeB_iff.mpr h)

theorem strLe_trans : ∀ a b c, strLe a b → strLe b c → strLe a c :=
  fun _ _ _ hab hbc =>
    strLeB_iff.mpr (le_trans (strLeB_iff.mp hab) (strLeB_iff.mp hbc))

theorem strLe_antisymm : ∀ a b, strLe a b → strLe b a → a = b :=
  fun _ _ hab hba => le_antisymm (strLeB_iff.mp hab) (strLeB_iff.mp hba)

theorem mem_sortedSet {x : String} {xs : List String} :
    x ∈ sortedSet xs ↔ x ∈ xs := by
  simp [sortedSet, List.mem_insertionSort]

theorem sortedSet_sorted (xs : List String) :
    (sortedSet xs).Sorted (· ≤ ·) :=
  (@List.sorted_insertionSort String strLe _ ⟨strLe_total⟩ ⟨strLe_trans⟩
    xs.dedup).imp fun h => strLeB_iff.mp h

theorem sortedSet_nodup (xs : List String) : (sortedSet xs).Nodup :=
  ((List.perm_insertionSort _ _).nodup_iff).mpr xs.nodup_dedup

theorem sortedSet_eq_self {xs : List String} (hs : xs.Sorted (· ≤ ·))
    (hn : xs.Nodup) : sortedSet xs = xs := by
  rw [sortedSet, List.dedup_eq_self.mpr hn]
  exact List.Sorted.insertionSort_eq (hs.imp fun h => strLeB_iff.mpr h)

/-!
## Helper lemmas: characters, stripping, lowering
-/

theorem char_toNat_ofNat_valid {n : Nat} (h : n.isValidChar) :
    (Char.ofNat n).toNat = n := by
  rw [Char.ofNat, dif_pos h]
  rfl

theorem toLower_toLower (c : Char) : c.toLower.toLower = c.toLower := by
  simp only [Char.toLower]
  by_cases h : c.toNat ≥ 65 ∧ c.toNat ≤ 90
  · rw [if_pos h]
    have hv : (c.toNat + 32).isValidChar := Or.inl (by omega)
    rw [char_toNat_ofNat_valid hv, if_neg (by omega)]
  · rw [if_neg h, if_neg h]

theorem isWhitespace_eq_false_of_toNat {d : Char} (h : 33 ≤ d.toNat) :
    d.isWhitespace = false := by
  simp only [Char.isWhitespace, Bool.or_eq_false_iff, decide_eq_false_iff_not]
  have hsp : (' ' : Char).toNat = 32 := rfl
  have hta : ('\t' : Char).toNat = 9 := rfl
  have hcr : ('\r' : Char).toNat = 13 := rfl
  have hnl : ('\n' : Char).toNat = 10 := rfl
  exact ⟨⟨⟨fun he => by subst he; omega, fun he => by subst he; omega⟩,
    fun he => by subst he; omega⟩, fun he => by subst he; omega⟩

theorem isWhitespace_toLower (c : Char) :
    c.toLower.isWhitespace = c.isWhitespace := by
  simp only [Char.toLower]
  by_cases h : c.toNat ≥ 65 ∧ c.toNat ≤ 90
  · rw [if_pos h]
    have hv : (c.toNat + 32).isValidChar := Or.inl (by omega)
    have h1 : (Char.ofNat (c.toNat + 32)).toNat = c.toNat + 32 :=
      char_toNat_ofNat_valid hv
    rw [isWhitespace_eq_false_of_toNat (by omega),
      isWhitespace_eq_false_of_toNat (by omega)]
  · rw [if_neg h]

theorem dropWhile_eq_self_of_head {α : Type} {p : α → Bool} {l : List α}
    (h : ∀ c, l.head? = some c → p c = false) : l.dropWhile p = l := by
  cases l with
  | nil => rfl
  | cons a as =>
    exact List.dropWhile_cons_of_neg (by simp [h a rfl])

theorem head_dropWhile_false {α : Type} (p : α → Bool) (l : List α) :
    ∀ c, (l.dropWhile p).head? = some c → p c = false := by
  intro c hc
  have h := List.head?_dropWhile_not p l
  rw [hc] at h
  exact h

theorem dropWhile_dropWhile {α : Type} (p : α → Bool) (l : List α) :
    (l.dropWhile p).dropWhile p = l.dropWhile p :=
  dropWhile_eq_self_of_head (head_dropWhile_false p l)

theorem noWsEdge_pyStripL (l : List Char) : NoWsEdge (pyStripL l) := by
  constructor
  · intro c hc
    -- `pyStripL l` is a nonempty prefix of `dropLead l`, whose head is
    -- already known not to be whitespace.
    obtain ⟨t, ht⟩ :=
      List.dropWhile_suffix (l := (dropLead l).reverse) Char.isWhitespace
    have hm : dropLead l = pyStripL l ++ t.reverse := by
      have := congrArg List.reverse ht
      simpa [pyStripL] using this.symm
    refine head_dropWhile_false Char.isWhitespace l c ?_
    show (dropLead l).head? = some c
    rw [hm, List.head?_append, hc]
    rfl
  · intro c hc
    rw [pyStripL, List.reverse_reverse] at hc
    exact head_dropWhile_false Char.isWhitespace (dropLead l).reverse c hc

theorem pyStripL_eq_self {l : List Char} (h : NoWsEdge l) : pyStripL l = l := by
  have h1 : dropLead l = l := dropWhile_eq_self_of_head h.1
  rw [pyStripL, h1, dropWhile_eq_self_of_head h.2, List.reverse_reverse]

theorem noWsEdge_map_toLower {l : List Char} (h : NoWsEdge l) :
    NoWsEdge (l.map Char.toLower) := by
  constructor
  · intro c hc
    rw [List.head?_map] at hc
    match hh : l.head? with
    | none => rw [hh] at hc; cases hc
    | some c₀ =>
      rw [hh] at hc
      cases hc
      rw [isWhitespace_toLower]
      exact h.1 c₀ hh
  · intro c hc
    rw [← List.map_reverse, List.head?_map] at hc
    match hh : l.reverse.head? with
    | none => rw [hh] at hc; cases hc
    | some c₀ =>
      rw [hh] at hc
      cases hc
      rw [isWhitespace_toLower]
      exact h.2 c₀ hh

/-- The per-line processing of `read_input` (`line.strip().lower()`) is
idempotent. -/
theorem process_line_idem (s : String) :
    pyLower (pyStrip (pyLower (pyStrip s))) = pyLower (pyStrip s) := by
  have hstrip :
      pyStripL ((pyStripL s.data).map Char.toLower) =
        (pyStripL s.data).map Char.toLower :=
    pyStripL_eq_self (noWsEdge_map_toLower (noWsEdge_pyStripL s.data))
  show (⟨(pyStripL (⟨(pyStripL s.data).map Char.toLower⟩ : String).data).map
    Char.toLower⟩ : String) = ⟨(pyStripL s.data).map Char.toLower⟩
  rw [show (⟨(pyStripL s.data).map Char.toLower⟩ : String).data =
    (pyStripL s.data).map Char.toLower from rfl, hstrip, List.map_map]
  congr 1
  exact List.map_congr_left fun c _ => toLower_toLower c

theorem mem_read_input {x : String} {content : List String} :
    x ∈ read_input content ↔
      x ≠ "" ∧ ∃ l ∈ content, pyLower (pyStrip l) = x := by
  rw [read_input, mem_sortedSet, List.mem_filter]
  simp only [List.mem_map, decide_eq_true_eq]
  tauto

/-!
## Claim theorems
-/

/-- Claim C1 (counterexample): the claim states
`normalize_host("HTTPS://Example.com/") = "example.com"`, but
`normalize_host` performs no lowercasing, so the result keeps the
capital `E`. -/
theorem normalize_host_uppercase_not_lowercased :
    normalize_host "HTTPS://Example.com/" ≠ "example.com" := by decide

/-- Claim C1 (amended): `normalize_host "HTTPS://Example.com/"` strips
the scheme (case-insensitively) and the trailing slash but preserves
the case of the host, returning `"Example.com"`. -/
theorem normalize_host_example_case_preserved :
    normalize_host "HTTPS://Example.com/" = "Example.com" := by decide

/-- Claim C5: `read_input` returns exactly the distinct non-blank lines
of the file, each stripped of surrounding whitespace and lowercased,
in sorted order with no duplicates. -/
theorem read_input_spec (content : List String) :
    (∀ x, x ∈ read_input content ↔
      x ≠ "" ∧ ∃ l ∈ content, pyLower (pyStrip l) = x) ∧
    (read_input content).Sorted (· ≤ ·) ∧ (read_input content).Nodup :=
  ⟨fun _ => mem_read_input, sortedSet_sorted _, sortedSet_nodup _⟩

/-- Claim C7: the input loader's transformation is idempotent: applying
the strip/lowercase/deduplicate/sort transformation to its own output
returns that output unchanged (so loading the same file twice gives
the same result). -/
theorem read_input_idempotent (content : List String) :
    read_input (read_input content) = read_input content := by
  have hmap :
      (read_input content).map (fun l => pyLower (pyStrip l)) =
        read_input content := by
    have h := List.map_congr_left
      (l := read_input content) (f := fun l => pyLower (pyStrip l)) (g := id)
      (fun x hx => by
        obtain ⟨-, l, -, hl⟩ := mem_read_input.mp hx
        rw [← hl]
        exact process_line_idem l)
    simpa using h
  have hfilter :
      ((read_input content).map (fun l => pyLower (pyStrip l))).filter
          (fun s => s ≠ "") = read_input content := by
    rw [hmap]
    refine List.filter_eq_self.mpr fun x hx => ?_
    simp only [decide_eq_true_eq]
    exact (mem_read_input.mp hx).1
  show sortedSet _ = _
  rw [hfilter]
  exact sortedSet_eq_self (sortedSet_sorted _) (sortedSet_nodup _)

/-- Claim C8 (counterexample): `normalize_host` is not idempotent: one
application of the scheme-stripping regex can expose a second scheme,
as on `"http://https://x"`. -/
theorem normalize_host_not_idempotent :
    normalize_host (normalize_host "http://https://x") ≠
      normalize_host "http://https://x" := by decide

theorem stripSchemeL_eq_self {s : String} (h : hasSchemeStart s = false) :
    stripSchemeL s.data = s.data := by
  rw [hasSchemeStart, Bool.or_eq_false_iff, decide_eq_false_iff_not,
    decide_eq_false_iff_not] at h
  rw [stripSchemeL, if_neg h.1, if_neg h.2]

theorem rstripChars_rstripChars (bad l : List Char) :
    rstripChars bad (rstripChars bad l) = rstripChars bad l := by
  rw [rstripChars, rstripChars, List.reverse_reverse, dropWhile_dropWhile]

/-- Claim C8 (amended): `normalize_host` is idempotent on every string
whose normalized form does not itself begin with another
(case-insensitive) `http://` or `https://` scheme; the counterexample
forces exactly this proviso. -/
theorem normalize_host_idem_of_no_scheme (h : String)
    (hns : hasSchemeStart (normalize_host h) = false) :
    normalize_host (normalize_host h) = normalize_host h := by
  show (⟨rstripChars ['/', ' '] (stripSchemeL (normalize_host h).data)⟩ : String) =
    normalize_host h
  rw [stripSchemeL_eq_self hns]
  show (⟨rstripChars ['/', ' ']
    (rstripChars ['/', ' '] (stripSchemeL h.data))⟩ : String) = normalize_host h
  rw [rstripChars_rstripChars]
  rfl

/-- Claim C8 (witness): the amended idempotence applies at
`"HTTPS://Example.com/"`. -/
theorem normalize_host_idem_witness :
    hasSchemeStart (normalize_host "HTTPS://Example.com/") = false ∧
      normalize_host (normalize_host "HTTPS://Example.com/") =
        normalize_host "HTTPS://Example.com/" :=
  ⟨by decide, normalize_host_idem_of_no_scheme "HTTPS://Example.com/" (by decide)⟩

/-- Claim C4 (counterexample): the claim's biconditional fails for the
empty-string host: the worker returns the host, but the aggregation
loop tests the result for truthiness (`if r:`), so `""` is dropped
even when the lookup oracle reports an address record. -/
theorem resolve_empty_host_excluded :
    resolve_with_socket (fun _ : String => some ["0.0.0.0"]) [""] = [] ∧
      (fun _ : String => some ["0.0.0.0"]) "" = some ["0.0.0.0"] := by
  constructor
  · decide
  · rfl

/-- What `resolve_with_socket` keeps for one host: the host itself,
when the lookup gives a nonempty record list and the host is truthy. -/
theorem resolve_entry {α : Type} (dns : String → Option (List α)) (h : String) :
    (match resolve_check dns h with
      | some r => if r = "" then none else some r
      | none => none) =
      (match dns h with
        | some infos => if infos.isEmpty || h = "" then none else some h
        | none => none) := by
  rw [resolve_check]
  cases dns h with
  | none => rfl
  | some infos =>
    by_cases he : infos.isEmpty
    · simp [he]
    · by_cases hh : h = "" <;> simp [he, hh]

/-- Claim C4 (amended): in the fallback resolver a host is included in
the resolved set iff it was submitted, is nonempty, and its address
lookup returns at least one address record; every lookup failure
(modelled by `none`) silently excludes the host. -/
theorem mem_resolve_with_socket {α : Type} {dns : String → Option (List α)}
    {hosts : List String} {x : String} :
    x ∈ resolve_with_socket dns hosts ↔
      x ∈ hosts ∧ x ≠ "" ∧ ∃ infos, dns x = some infos ∧ infos ≠ [] := by
  rw [resolve_with_socket, mem_sortedSet, List.mem_filterMap]
  constructor
  · rintro ⟨h, hh, hmap⟩
    rw [resolve_entry] at hmap
    split at hmap
    · next infos hdns =>
        split at hmap
        · cases hmap
        · next hcond =>
            cases hmap
            rw [Bool.or_eq_true, not_or] at hcond
            refine ⟨hh, ?_, infos, hdns, ?_⟩
            · simpa using hcond.2
            · simpa [List.isEmpty_iff] using hcond.1
    · cases hmap
  · rintro ⟨hx, hne, infos, hdns, hinfos⟩
    refine ⟨x, hx, ?_⟩
    rw [resolve_entry, hdns]
    show (if infos.isEmpty || x = "" then none else some x) = some x
    rw [if_neg]
    simp [hne, List.isEmpty_iff, hinfos]

/-- Removing an element on which `f` yields `none` does not change a
`filterMap`. -/
theorem filterMap_filter_ne {α β : Type} [DecidableEq α] (f : α → Option β) (a : α)
    (hf : f a = none) (l : List α) :
    (l.filter fun x => x ≠ a).filterMap f = l.filterMap f := by
  induction l with
  | nil => rfl
  | cons b t ih =>
    by_cases hb : b = a
    · subst hb
      rw [List.filter_cons_of_neg (by simp), List.filterMap_cons, hf]
      exact ih
    · rw [List.filter_cons_of_pos (by simp [hb]), List.filterMap_cons,
        List.filterMap_cons]
      cases f b <;> simpa [decide_not] using ih

/-- Claim C3: the fallback prober tries HTTPS (port 443) strictly before
HTTP (port 80): a successful HTTPS connection determines the result
(with an `https://` URL) and port 80 is never consulted (any oracle
agreeing on port 443 yields the same result); HTTP is only used after
HTTPS fails; and a host failing on both ports produces no probe
result, no alive entry and no raw output line (removing it from the
submitted hosts leaves `run_probe_fallback`'s output unchanged). -/
theorem probe_https_first_then_http
    (net : String → Nat → Option String) (host d : String)
    (hosts : List String) :
    (net (hostnameOf host) 443 = some d →
      probe_host_with_requests net host =
        some ("https://" ++ host, parseStatusCode d, "-") ∧
      ∀ net₂ : String → Nat → Option String,
        net₂ (hostnameOf host) 443 = some d →
          probe_host_with_requests net₂ host =
            probe_host_with_requests net host) ∧
    (net (hostnameOf host) 443 = none →
      net (hostnameOf host) 80 = some d →
      probe_host_with_requests net host =
        some ("http://" ++ host, parseStatusCode d, "-")) ∧
    (net (hostnameOf host) 443 = none →
      net (hostnameOf host) 80 = none →
      probe_host_with_requests net host = none ∧
      run_probe_fallback net (hosts.filter fun h => h ≠ host) =
        run_probe_fallback net hosts) := by
  refine ⟨fun h443 => ⟨?_, fun net₂ h443' => ?_⟩,
    fun h443 h80 => ?_, fun h443 h80 => ⟨?_, ?_⟩⟩
  · rw [probe_host_with_requests, h443]
  · rw [probe_host_with_requests, h443', probe_host_with_requests, h443]
  · rw [probe_host_with_requests, h443, h80]
  · rw [probe_host_with_requests, h443, h80]
  · have hdead : probe_host_with_requests net host = none := by
      rw [probe_host_with_requests, h443, h80]
    rw [run_probe_fallback, run_probe_fallback,
      filterMap_filter_ne _ host hdead]

/-- Claim C3 (witness): with an oracle serving HTTPS for `ok.com` the
probe returns the HTTPS result, and with an all-refusing oracle the
dead host `x.com` contributes nothing to the fallback probe output. -/
theorem probe_https_first_then_http_witness :
    probe_host_with_requests
        (fun hn p => if hn = "ok.com" && p == 443
          then some "HTTP/1.1 200 OK" else none) "ok.com" =
      some ("https://ok.com", 200, "-") ∧
    run_probe_fallback (fun _ _ => none)
        (["x.com", "y.com"].filter fun h => h ≠ "x.com") =
      run_probe_fallback (fun _ _ => none) ["x.com", "y.com"] := by
  constructor
  · have h := ((probe_https_first_then_http
      (fun hn p => if hn = "ok.com" && p == 443
        then some "HTTP/1.1 200 OK" else none)
      "ok.com" "HTTP/1.1 200 OK" []).1 (by decide)).1
    rw [h]
    decide
  · exact ((probe_https_first_then_http (fun _ _ => none) "x.com" ""
      ["x.com", "y.com"]).2.2 rfl rfl).2

/-- A successful probe of a submitted host contributes its raw line
and its normalized URL to `run_probe_fallback`'s output. -/
theorem run_probe_mem (net : String → Nat → Option String)
    (hosts : List String) (host : String) (r : String × Nat × String)
    (hmem : host ∈ hosts)
    (hp : probe_host_with_requests net host = some r) :
    probeLine r ∈ (run_probe_fallback net hosts).2 ∧
      normalize_host r.1 ∈ (run_probe_fallback net hosts).1 := by
  have hres : r ∈ hosts.filterMap fun h => probe_host_with_requests net h :=
    List.mem_filterMap.mpr ⟨host, hmem, hp⟩
  constructor
  · exact List.mem_map_of_mem probeLine hres
  · show normalize_host r.1 ∈ sortedSet _
    rw [mem_sortedSet]
    exact List.mem_map_of_mem (fun r => normalize_host r.1) hres

/-- Claim C10: a host whose socket connection succeeds but whose
response contains no parsable HTTP status line is still counted as
alive: the probe returns status code `0`, its raw line
`f"{url} 0 -\n"` is written, and `normalize_host url` joins the alive
set. -/
theorem probe_unparsable_status_counts_alive
    (net : String → Nat → Option String) (host data : String)
    (hosts : List String)
    (hmem : host ∈ hosts)
    (hconn : net (hostnameOf host) 443 = some data ∨
      (net (hostnameOf host) 443 = none ∧
        net (hostnameOf host) 80 = some data))
    (hnostatus : findStatus data.data = none) :
    ∃ url, probe_host_with_requests net host = some (url, 0, "-") ∧
      probeLine (url, 0, "-") = url ++ " 0 -\n" ∧
      probeLine (url, 0, "-") ∈ (run_probe_fallback net hosts).2 ∧
      normalize_host url ∈ (run_probe_fallback net hosts).1 := by
  have hcode : parseStatusCode data = 0 := by
    rw [parseStatusCode, hnostatus]
    rfl
  have hline : ∀ url : String, probeLine (url, 0, "-") = url ++ " 0 -\n" := by
    intro url
    have h0 : toString (0 : Nat) = "0" := rfl
    refine String.toList_inj.mp ?_
    simp [probeLine, h0, String.toList]
  have hprobe : ∃ url,
      probe_host_with_requests net host = some (url, 0, "-") := by
    rcases hconn with h443 | ⟨h443, h80⟩
    · exact ⟨"https://" ++ host, by
        simp only [probe_host_with_requests, h443, hcode]⟩
    · exact ⟨"http://" ++ host, by
        simp only [probe_host_with_requests, h443, h80, hcode]⟩
  obtain ⟨url, hp⟩ := hprobe
  obtain ⟨hraw, halive⟩ := run_probe_mem net hosts host (url, 0, "-") hmem hp
  exact ⟨url, hp, hline url, hraw, halive⟩

/-- Claim C10 (witness): an oracle that accepts the HTTPS connection for
`x.com` but answers with unparsable bytes still yields an alive entry
with status code `0`. -/
theorem probe_unparsable_status_witness :
    ∃ url, probe_host_with_requests
        (fun _ p => if p == 443 then some "junk bytes" else none) "x.com" =
          some (url, 0, "-") ∧
      probeLine (url, 0, "-") = url ++ " 0 -\n" ∧
      probeLine (url, 0, "-") ∈
        (run_probe_fallback
          (fun _ p => if p == 443 then some "junk bytes" else none)
          ["x.com"]).2 ∧
      normalize_host url ∈
        (run_probe_fallback
          (fun _ p => if p == 443 then some "junk bytes" else none)
          ["x.com"]).1 :=
  probe_unparsable_status_counts_alive
    (fun _ p => if p == 443 then some "junk bytes" else none)
    "x.com" "junk bytes" ["x.com"] (by decide) (Or.inl rfl) (by decide)

/-- Claim C6: with an empty pattern `filter_by_pattern` returns the
lines unchanged; with a non-empty (parseable) pattern it keeps exactly
the lines on which the case-insensitive search succeeds; in particular
on `["api.example.com", "www.example.com"]` the pattern `"^api"` keeps
exactly `["api.example.com"]`, and — the search being
case-insensitive — so does `"^API"`. -/
theorem filter_by_pattern_spec :
    (∀ lines : List String, filter_by_pattern lines "" = some lines) ∧
    (∀ (lines : List String) (p : String) (brs : List (Bool × Regex)),
      p ≠ "" → parsePattern p = some brs →
      ∃ out, filter_by_pattern lines p = some out ∧
        ∀ x, x ∈ out ↔ x ∈ lines ∧ reSearch brs x = true) ∧
    filter_by_pattern ["api.example.com", "www.example.com"] "^api" =
      some ["api.example.com"] ∧
    filter_by_pattern ["api.example.com", "www.example.com"] "^API" =
      some ["api.example.com"] := by
  refine ⟨fun lines => rfl, fun lines p brs hp hbrs => ?_, by decide, by decide⟩
  refine ⟨lines.filter fun l => reSearch brs l, ?_, fun x => ?_⟩
  · rw [filter_by_pattern, if_neg hp, hbrs]
    rfl
  · rw [List.mem_filter]

/-- Claim C6 (witness): the filtering characterization instantiated at
the specification's example. -/
theorem filter_by_pattern_witness :
    ∃ out, filter_by_pattern ["api.example.com", "www.example.com"] "^api" =
        some out ∧
      ∀ x, x ∈ out ↔ x ∈ ["api.example.com", "www.example.com"] ∧
        reSearch [(true, Regex.seq (.ch 'a') (Regex.seq (.ch 'p')
          (Regex.seq (.ch 'i') .eps)))] x = true :=
  filter_by_pattern_spec.2.1 ["api.example.com", "www.example.com"] "^api"
    [(true, Regex.seq (.ch 'a') (Regex.seq (.ch 'p')
      (Regex.seq (.ch 'i') .eps)))] (by decide) (by decide)

/-- Claim C9: a missing (or unreadable) input file makes the program
exit with the failure status `1` (nonzero) before any pipeline stage
runs. -/
theorem pipeline_missing_input_fails {α : Type} (args : Args)
    (dns : String → Option (List α)) (net : String → Nat → Option String) :
    pipeline none args dns net = Except.error 1 ∧ (1 : Nat) ≠ 0 :=
  ⟨rfl, by decide⟩

/-- Claim C2 (counterexample): a complete run writes exactly two
files — the raw probe output and the live-hosts file — and no
dead-hosts file: here the dead input host `dead.com` appears in
neither output file, contradicting the claimed three-file output with
a dead-host set. -/
theorem pipeline_two_files_counterexample :
    pipeline (some ["A.com", "dead.com"]) ⟨"", 0, "live-hosts.txt"⟩
        (fun _ : String => some ["0.0.0.0"])
        (fun hn p => if hn = "a.com" && p == 443
          then some "HTTP/1.1 200 OK" else none) =
      Except.ok [("httpx-alive.txt", "https://a.com 200 -\n"),
                 ("live-hosts.txt", "a.com\n")] ∧
    ([("httpx-alive.txt", "https://a.com 200 -\n"),
      ("live-hosts.txt", "a.com\n")] : List (String × String)).length = 2 :=
  ⟨rfl, rfl⟩

/-- Claim C2 (amended): every run (with a well-formed pattern) writes
exactly two files, in this order: the raw probe output under
`httpx-alive.txt`, and the alive host set under the configured output
name — one normalized host per line (`rstrip("/\n")` plus newline),
sorted and duplicate-free.  No dead-hosts file is produced, so the
claimed dead-set equations have no file to hold of. -/
theorem pipeline_output_files {α : Type} (content : List String) (args : Args)
    (dns : String → Option (List α)) (net : String → Nat → Option String)
    (hpat : args.pattern = "" ∨ ∃ brs, parsePattern args.pattern = some brs) :
    ∃ hosts files,
      pipeline (some content) args dns net = Except.ok files ∧
      files = [("httpx-alive.txt",
                 String.join (run_probe_fallback net
                   (resolve_with_socket dns hosts)).2),
               (args.output,
                 String.join ((sortedSet (run_probe_fallback net
                   (resolve_with_socket dns hosts)).1).map aliveHostLine))] ∧
      files.map Prod.fst = ["httpx-alive.txt", args.output] ∧
      files.length = 2 ∧
      (sortedSet (run_probe_fallback net
        (resolve_with_socket dns hosts)).1).Sorted (· ≤ ·) ∧
      (sortedSet (run_probe_fallback net
        (resolve_with_socket dns hosts)).1).Nodup := by
  have key : ∃ hosts1, (if args.pattern = "" then some (read_input content)
      else filter_by_pattern (read_input content) args.pattern) =
        some hosts1 := by
    rcases hpat with hp | ⟨brs, hbrs⟩
    · exact ⟨read_input content, by rw [if_pos hp]⟩
    · by_cases hp : args.pattern = ""
      · exact ⟨read_input content, by rw [if_pos hp]⟩
      · refine ⟨(read_input content).filter fun l => reSearch brs l, ?_⟩
        rw [if_neg hp, filter_by_pattern, if_neg hp, hbrs]
        rfl
  obtain ⟨hosts1, h1⟩ := key
  refine ⟨if 0 < args.sample then sample_lines hosts1 args.sample else hosts1,
    _, ?_, rfl, rfl, rfl, sortedSet_sorted _, sortedSet_nodup _⟩
  simp only [pipeline, h1]

/-- Claim C2 (witness): the two-file output shape instantiated on a
concrete run. -/
theorem pipeline_output_files_witness :
    ∃ hosts files,
      pipeline (some ["a.com"]) ⟨"", 0, "live-hosts.txt"⟩
          (fun _ : String => some ["0.0.0.0"])
          (fun hn p => if hn = "a.com" && p == 443
            then some "HTTP/1.1 200 OK" else none) = Except.ok files ∧
      files = [("httpx-alive.txt",
                 String.join (run_probe_fallback
                   (fun hn p => if hn = "a.com" && p == 443
                     then some "HTTP/1.1 200 OK" else none)
                   (resolve_with_socket (fun _ : String => some ["0.0.0.0"])
                     hosts)).2),
               ("live-hosts.txt",
                 String.join ((sortedSet (run_probe_fallback
                   (fun hn p => if hn = "a.com" && p == 443
                     then some "HTTP/1.1 200 OK" else none)
                   (resolve_with_socket (fun _ : String => some ["0.0.0.0"])
                     hosts)).1).map aliveHostLine))] ∧
      files.map Prod.fst = ["httpx-alive.txt", "live-hosts.txt"] ∧
      files.length = 2 ∧
      (sortedSet (run_probe_fallback
        (fun hn p => if hn = "a.com" && p == 443
          then some "HTTP/1.1 200 OK" else none)
        (resolve_with_socket (fun _ : String => some ["0.0.0.0"])
          hosts)).1).Sorted (· ≤ ·) ∧
      (sortedSet (run_probe_fallback
        (fun hn p => if hn = "a.com" && p == 443
          then some "HTTP/1.1 200 OK" else none)
        (resolve_with_socket (fun _ : String => some ["0.0.0.0"])
          hosts)).1).Nodup :=
  pipeline_output_files ["a.com"] ⟨"", 0, "live-hosts.txt"⟩
    (fun _ : String => some ["0.0.0.0"])
    (fun hn p => if hn = "a.com" && p == 443
      then some "HTTP/1.1 200 OK" else none)
    (Or.inl rfl)
